import Mathlib

/-!
Verification of the batching and parallel-dispatch utilities of the
cycode-cli repository.

Shallow embedding of:
- `src/cycode/cli/utils/scan_batch.py`:
  `split_documents_into_batches`, `_get_threads_count`,
  `run_parallel_batched_scan`;
- `src/cycode/cyclient/scan_client.py`:
  the `scan_parameters` mutation done by `ScanClient.zipped_file_scan_sync`.

Python machine-level details are embedded as follows: document contents
are Lean `String`s and their byte size is the UTF-8 byte size, matching
`len(document.content.encode('UTF-8'))`; the insertion-ordered Python
`dict` used for `cli_errors` is an association list whose insert replaces
in place an existing key and appends a fresh one; the thread pool
consumed through `pool.imap` (which yields outcomes in submission order)
is embedded as a sequential fold over the batch list; the in-place
mutations of the progress bar and of the caller's `scan_parameters`
dictionary are embedded as explicit state passing.
-/

namespace CycodeCli

/-- A document, from `cycode.cli.models.Document`: a path and a textual
content.  Only these two fields are read by the batching code. -/
structure Document where
  path : String
  content : String
deriving DecidableEq, Repr

/-- `len(document.content.encode('UTF-8'))` (scan_batch.py line 24). -/
def documentSize (d : Document) : Nat :=
  d.content.utf8ByteSize

/-- Total UTF-8 byte size of a list of documents. -/
def sizeSum (l : List Document) : Nat :=
  (l.map documentSize).sum

/-- The loop of `split_documents_into_batches` (scan_batch.py lines 19-38):
state is the remaining documents, the accumulated `batches`, the running
`current_batch` and its byte total `current_size`.  The final
`if current_batch:` append is the base case. -/
def splitLoop (max_size max_files_count : Nat) :
    List Document → List (List Document) → List Document → Nat → List (List Document)
  | [], batches, current_batch, _ =>
    if current_batch.isEmpty then batches else batches ++ [current_batch]
  | document :: documents, batches, current_batch, current_size =>
    let document_size := documentSize document
    if max_size < current_size + document_size ∨ max_files_count ≤ current_batch.length then
      splitLoop max_size max_files_count documents
        (batches ++ [current_batch]) [document] document_size
    else
      splitLoop max_size max_files_count documents
        batches (current_batch ++ [document]) (current_size + document_size)

/-- `split_documents_into_batches(documents, max_size, max_files_count)`
(scan_batch.py lines 14-38).  The default values of `max_size` and
`max_files_count` come from `cycode.cli.consts` and are passed explicitly
here. -/
def split_documents_into_batches
    (documents : List Document) (max_size max_files_count : Nat) : List (List Document) :=
  splitLoop max_size max_files_count documents [] [] 0

/-- `_get_threads_count` (scan_batch.py lines 41-43).  `os.cpu_count()`
returns either `None` (embedded as `none`) or the CPU count; Python's
`os.cpu_count() or 1` also maps a falsy `0` to `1`.  The two constants
`consts.SCAN_BATCH_SCANS_PER_CPU` and `consts.SCAN_BATCH_MAX_PARALLEL_SCANS`
live in `cycode/cli/consts.py`, which is not part of the two embedded
source files, so they are parameters here. -/
def _get_threads_count
    (os_cpu_count : Option Nat)
    (scan_batch_scans_per_cpu scan_batch_max_parallel_scans : Nat) : Nat :=
  let cpu_count := match os_cpu_count with
    | none => 1
    | some n => if n = 0 then 1 else n
  min (cpu_count * scan_batch_scans_per_cpu) scan_batch_max_parallel_scans

/-- Modelled from the spec: the progress reporter interface
(`cycode/cli/utils/progress_bar.py` is not among the embedded source
files).  The spec describes it as exposing `set_expected_steps(section,
count)` and `increment(section)` over named progress sections, so the
state is the expected step count and the number of increments received,
per section.  `S` is the type of section names. -/
structure BaseProgressBar (S : Type) where
  section_length : S → Nat
  update_count : S → Nat

/-- Modelled from the spec: `progress_bar.set_section_length(section, n)`
sets the expected step count of `section` and touches nothing else. -/
def BaseProgressBar.set_section_length {S : Type} [DecidableEq S]
    (pb : BaseProgressBar S) (s : S) (n : Nat) : BaseProgressBar S :=
  { pb with section_length := fun t => if t = s then n else pb.section_length t }

/-- Modelled from the spec: `progress_bar.update(section)` reports one
progress step for `section` and touches nothing else. -/
def BaseProgressBar.update {S : Type} [DecidableEq S]
    (pb : BaseProgressBar S) (s : S) : BaseProgressBar S :=
  { pb with update_count := fun t => if t = s then pb.update_count t + 1 else pb.update_count t }

/-- Insertion into an insertion-ordered Python `dict` embedded as an
association list: `m[k] = v` overwrites in place when `k` is present and
appends `(k, v)` otherwise. -/
def dictInsert {E : Type} (m : List (String × E)) (k : String) (v : E) :
    List (String × E) :=
  if m.any (fun p => p.1 == k) then
    m.map (fun p => if p.1 == k then (k, v) else p)
  else
    m ++ [(k, v)]

/-- The consumption loop of `run_parallel_batched_scan` (scan_batch.py
lines 65-72): for each `(scan_id, err, result)` triple yielded by
`pool.imap(scan_function, batches)` — in submission order — append
`result` to `local_scan_results` when present, record `err` under
`scan_id` when present, and report one progress step.  `E` embeds
`CliError`, `R` embeds `LocalScanResult`; Python truthiness of the two
optional slots is embedded as `Option.isSome`. -/
def scanBatchesLoop {E R S : Type} [DecidableEq S]
    (scan_function : List Document → String × Option E × Option R) (scanSection : S) :
    List (List Document) → List (String × E) → List R → BaseProgressBar S →
    List (String × E) × List R × BaseProgressBar S
  | [], cli_errors, local_scan_results, progress_bar =>
    (cli_errors, local_scan_results, progress_bar)
  | batch :: rest, cli_errors, local_scan_results, progress_bar =>
    let out := scan_function batch
    let local_scan_results2 := match out.2.2 with
      | some result => local_scan_results ++ [result]
      | none => local_scan_results
    let cli_errors2 := match out.2.1 with
      | some err => dictInsert cli_errors out.1 err
      | none => cli_errors
    scanBatchesLoop scan_function scanSection rest cli_errors2 local_scan_results2
      (progress_bar.update scanSection)

/-- The batch list computed by `run_parallel_batched_scan` (scan_batch.py
lines 52-53): `max_size` is looked up in the per-scan-type table
`consts.SCAN_BATCH_MAX_SIZE_IN_BYTES` with default
`consts.DEFAULT_SCAN_BATCH_MAX_SIZE_IN_BYTES`, and the file-count limit
is the default `consts.DEFAULT_SCAN_BATCH_MAX_FILES_COUNT` (the constants
live outside the embedded files and are parameters). -/
def run_scan_batches
    (documents : List Document)
    (scan_batch_max_size_in_bytes : String → Option Nat)
    (default_max_size default_max_files_count : Nat)
    (scan_type : String) : List (List Document) :=
  split_documents_into_batches documents
    ((scan_batch_max_size_in_bytes scan_type).getD default_max_size)
    default_max_files_count

/-- `run_parallel_batched_scan(scan_function, scan_type, documents,
progress_bar)` (scan_batch.py lines 46-74), embedded sequentially (the
pool's `imap` yields in submission order).  Returns the `(cli_errors,
local_scan_results)` pair of the source together with the final
progress-bar state (the source mutates `progress_bar` in place). -/
def run_parallel_batched_scan {E R S : Type} [DecidableEq S]
    (scan_function : List Document → String × Option E × Option R)
    (scan_type : String) (documents : List Document) (progress_bar : BaseProgressBar S)
    (scan_batch_max_size_in_bytes : String → Option Nat)
    (default_max_size default_max_files_count : Nat)
    (scanSection : S) :
    List (String × E) × List R × BaseProgressBar S :=
  let batches := run_scan_batches documents scan_batch_max_size_in_bytes
    default_max_size default_max_files_count scan_type
  let progress_bar2 := progress_bar.set_section_length scanSection batches.length
  scanBatchesLoop scan_function scanSection batches [] [] progress_bar2

/-- The effect of `ScanClient.zipped_file_scan_sync` (scan_client.py lines
117-139) on the caller's `scan_parameters` dictionary, embedded
extensionally as a map from keys to optional values: lines 126-127 delete
the key `'report'` when present, in place, before the HTTP request is
issued; the returned map is the dictionary state visible to the caller
after the call. -/
def zipped_file_scan_sync_scan_parameters {V : Type}
    (scan_parameters : String → Option V) : String → Option V :=
  if (scan_parameters "report").isSome then
    fun key => if key = "report" then none else scan_parameters key
  else
    scan_parameters

/-- Concrete document: name `a.txt`, content of five one-byte characters. -/
def docA : Document := ⟨"a.txt", "xxxxx"⟩

/-- Concrete document: name `b.txt`, content of five one-byte characters. -/
def docB : Document := ⟨"b.txt", "yyyyy"⟩

/-- Concrete document: name `c.txt`, content of fifteen one-byte characters. -/
def docC : Document := ⟨"c.txt", "zzzzzzzzzzzzzzz"⟩

/-- Concrete list of three documents of six bytes each. -/
def docsThreeSix : List Document :=
  [⟨"a", "xxxxxx"⟩, ⟨"b", "yyyyyy"⟩, ⟨"c", "zzzzzz"⟩]

lemma splitLoop_flatten (ms mf : Nat) :
    ∀ (ds : List Document) (batches : List (List Document)) (cur : List Document) (sz : Nat),
      (splitLoop ms mf ds batches cur sz).flatten = batches.flatten ++ cur ++ ds := by
  intro ds
  induction ds with
  | nil =>
    intro batches cur sz
    simp only [splitLoop]
    split
    · rename_i h
      rw [List.isEmpty_iff] at h
      simp [h]
    · simp
  | cons d ds ih =>
    intro batches cur sz
    simp only [splitLoop]
    split
    · rw [ih]
      simp
    · rw [ih]
      simp

/-- Claim C1: concatenating, in order, all batches returned by
`split_documents_into_batches` yields exactly the input document list:
no document is dropped, duplicated, or reordered. -/
theorem split_concat_preserves_documents
    (documents : List Document) (max_size max_files_count : Nat)
    (hms : 0 < max_size) (hmf : 0 < max_files_count) :
    (split_documents_into_batches documents max_size max_files_count).flatten = documents := by
  rw [split_documents_into_batches, splitLoop_flatten]
  simp

/-- Concrete instance of the C1 theorem, every hypothesis discharged. -/
theorem split_concat_preserves_documents_witness :
    0 < 10 ∧ 0 < 2 ∧
      (split_documents_into_batches [docA, docB, docC] 10 2).flatten = [docA, docB, docC] :=
  ⟨by decide, by decide,
    split_concat_preserves_documents [docA, docB, docC] 10 2 (by decide) (by decide)⟩

lemma splitLoop_batch_invariant (ms mf : Nat) (hmf : 0 < mf) :
    ∀ (ds : List Document) (batches : List (List Document)) (cur : List Document) (sz : Nat),
      sz = sizeSum cur →
      (∀ b ∈ batches, (sizeSum b ≤ ms ∨ b.length = 1) ∧ b.length ≤ mf) →
      (sizeSum cur ≤ ms ∨ cur.length = 1) →
      cur.length ≤ mf →
      ∀ b ∈ splitLoop ms mf ds batches cur sz,
        (sizeSum b ≤ ms ∨ b.length = 1) ∧ b.length ≤ mf := by
  intro ds
  induction ds with
  | nil =>
    intro batches cur sz _ hb hcur hlen
    simp only [splitLoop]
    split
    · exact hb
    · intro b hbm
      rcases List.mem_append.mp hbm with h | h
      · exact hb b h
      · have hbc : b = cur := by simpa using h
        subst hbc
        exact ⟨hcur, hlen⟩
  | cons d ds ih =>
    intro batches cur sz hsz hb hcur hlen
    simp only [splitLoop]
    split
    · apply ih (batches ++ [cur]) [d] (documentSize d) (by simp [sizeSum])
      · intro b hbm
        rcases List.mem_append.mp hbm with h | h
        · exact hb b h
        · have hbc : b = cur := by simpa using h
          subst hbc
          exact ⟨hcur, hlen⟩
      · right
        rfl
      · simpa using hmf
    · rename_i hcond
      push_neg at hcond
      apply ih batches (cur ++ [d]) (sz + documentSize d) (by simp [sizeSum, hsz])
      · exact hb
      · left
        have : sizeSum (cur ++ [d]) = sizeSum cur + documentSize d := by simp [sizeSum]
        rw [this, ← hsz]
        exact hcond.1
      · have : (cur ++ [d]).length = cur.length + 1 := by simp
        rw [this]
        exact hcond.2


/-- Claim C2: every batch produced by `split_documents_into_batches`
either fits in `max_size` UTF-8 bytes or contains exactly one document,
and never holds more than `max_files_count` documents. -/
theorem split_batch_size_invariant
    (documents : List Document) (max_size max_files_count : Nat)
    (hms : 0 < max_size) (hmf : 0 < max_files_count) :
    ∀ b ∈ split_documents_into_batches documents max_size max_files_count,
      (sizeSum b ≤ max_size ∨ b.length = 1) ∧ b.length ≤ max_files_count := by
  apply splitLoop_batch_invariant max_size max_files_count hmf documents [] [] 0
  · simp [sizeSum]
  · intro b hb
    simp at hb
  · left
    simp [sizeSum]
  · simp

/-- Concrete instance of the C2 theorem, every hypothesis discharged. -/
theorem split_batch_size_invariant_witness :
    0 < 10 ∧ 0 < 2 ∧
      ((sizeSum [docA] ≤ 10 ∨ [docA].length = 1) ∧ [docA].length ≤ 2) :=
  ⟨by decide, by decide,
    split_batch_size_invariant [docA] 10 2 (by decide) (by decide) [docA] (by decide)⟩

/-- Claim C3 is refuted: with the single document `c.txt` (two bytes) and
positive limits `max_size = 1`, `max_files_count = 1`, the produced batch
list is `[[], [docC]]`, whose first batch is empty — the size check fires
on the first document while `current_batch` is still `[]`, and the empty
list is appended. -/
theorem split_nonempty_counterexample :
    0 < 1 ∧
      split_documents_into_batches [docC] 1 1 = [[], [docC]] ∧
      ([] : List Document) ∈ split_documents_into_batches [docC] 1 1 := by
  decide

lemma splitLoop_tail_nonempty (ms mf : Nat) :
    ∀ (ds : List Document) (batches : List (List Document)) (cur : List Document) (sz : Nat),
      (∀ b ∈ batches.drop 1, b ≠ []) → (cur = [] → batches = []) →
      ∀ b ∈ (splitLoop ms mf ds batches cur sz).drop 1, b ≠ [] := by
  intro ds
  induction ds with
  | nil =>
    intro batches cur sz h1 h2
    simp only [splitLoop]
    split
    · exact h1
    · rename_i hne
      rw [List.isEmpty_iff] at hne
      cases batches with
      | nil =>
        intro b hb
        simp at hb
      | cons bb bs =>
        intro b hb
        have hb' : b ∈ bs ++ [cur] := by simpa using hb
        rcases List.mem_append.mp hb' with h | h
        · exact h1 b (by simpa using h)
        · have hbc : b = cur := by simpa using h
          subst hbc
          exact hne
  | cons d ds ih =>
    intro batches cur sz h1 h2
    simp only [splitLoop]
    split
    · apply ih
      · cases batches with
        | nil =>
          intro b hb
          simp at hb
        | cons bb bs =>
          intro b hb
          have hb' : b ∈ bs ++ [cur] := by simpa using hb
          rcases List.mem_append.mp hb' with h | h
          · exact h1 b (by simpa using h)
          · have hbc : b = cur := by simpa using h
            subst hbc
            intro hc
            have := h2 hc
            simp at this
      · intro hd
        simp at hd
    · apply ih
      · exact h1
      · intro hc
        simp at hc

/-- Claim C3 (amended): every batch except possibly the first is a
non-empty sequence of documents (the first batch is empty exactly in the
counterexample situation, when the first document alone exceeds
`max_size`). -/
theorem split_tail_batches_nonempty
    (documents : List Document) (max_size max_files_count : Nat)
    (hms : 0 < max_size) (hmf : 0 < max_files_count) :
    ∀ b ∈ (split_documents_into_batches documents max_size max_files_count).drop 1,
      b ≠ [] := by
  apply splitLoop_tail_nonempty
  · intro b hb
    simp at hb
  · intro _
    rfl

/-- Concrete instance of the amended C3 theorem, every hypothesis
discharged. -/
theorem split_tail_batches_nonempty_witness :
    0 < 1 ∧ [docC] ∈ (split_documents_into_batches [docC] 1 1).drop 1 ∧
      [docC] ≠ ([] : List Document) :=
  ⟨by decide, by decide,
    split_tail_batches_nonempty [docC] 1 1 (by decide) (by decide) [docC] (by decide)⟩

/-- Claim C8: on the three documents `a.txt` (5 bytes), `b.txt` (5
bytes), `c.txt` (15 bytes) with `max_size = 10` and `max_files_count =
2`, the batcher returns exactly `[[a.txt, b.txt], [c.txt]]`. -/
theorem split_concrete_scenario :
    split_documents_into_batches [docA, docB, docC] 10 2 = [[docA, docB], [docC]] := by
  decide

/-- Claim C4 is refuted: three six-byte documents with `max_size = 10`
and `max_files_count = 10` produce three batches, while
`ceil(total_bytes / max_size) = ceil(18 / 10) = 2` and
`ceil(doc_count / max_files_count) = ceil(3 / 10) = 1`, so the batch
count exceeds both claimed bounds (and their maximum). -/
theorem split_batch_count_counterexample :
    0 < 10 ∧
      (split_documents_into_batches docsThreeSix 10 10).length = 3 ∧
      ¬((split_documents_into_batches docsThreeSix 10 10).length ≤
          max ((sizeSum docsThreeSix + 10 - 1) / 10) ((docsThreeSix.length + 10 - 1) / 10)) := by
  decide

lemma splitLoop_length_bound (ms mf : Nat) (hmf : 0 < mf) :
    ∀ (ds : List Document) (batches : List (List Document)) (cur : List Document) (sz : Nat),
      sz = sizeSum cur →
      (splitLoop ms mf ds batches cur sz).length ≤
        batches.length + (2 * sizeSum ds + sizeSum cur) / (ms + 1) +
          (ds.length + cur.length) / mf + 1 := by
  intro ds
  induction ds with
  | nil =>
    intro batches cur sz _
    simp only [splitLoop]
    split
    · exact (Nat.le_add_right _ _).trans ((Nat.le_add_right _ _).trans (Nat.le_add_right _ _))
    · have hl : (batches ++ [cur]).length = batches.length + 1 := by simp
      rw [hl]
      exact Nat.add_le_add_right ((Nat.le_add_right _ _).trans (Nat.le_add_right _ _)) 1
  | cons d ds ih =>
    intro batches cur sz hsz
    simp only [splitLoop]
    split
    · rename_i hcond
      have hrec := ih (batches ++ [cur]) [d] (documentSize d) (by simp [sizeSum])
      have hl : (batches ++ [cur]).length = batches.length + 1 := by simp
      rcases hcond with hbyte | hfile
      · have key : (2 * sizeSum ds + sizeSum [d]) / (ms + 1) + 1 ≤
            (2 * sizeSum (d :: ds) + sizeSum cur) / (ms + 1) := by
          have e1 : (2 * sizeSum ds + sizeSum [d] + (ms + 1)) / (ms + 1) =
              (2 * sizeSum ds + sizeSum [d]) / (ms + 1) + 1 :=
            Nat.add_div_right _ (by omega)
          have e2 : 2 * sizeSum ds + sizeSum [d] + (ms + 1) ≤
              2 * sizeSum (d :: ds) + sizeSum cur := by
            have hc : sizeSum (d :: ds) = documentSize d + sizeSum ds := by simp [sizeSum]
            have hd : sizeSum [d] = documentSize d := by simp [sizeSum]
            omega
          have h3 := Nat.div_le_div_right (c := ms + 1) e2
          omega
        have mono : (ds.length + [d].length) / mf ≤ ((d :: ds).length + cur.length) / mf := by
          apply Nat.div_le_div_right
          simp
        omega
      · have key : (ds.length + [d].length) / mf + 1 ≤
            ((d :: ds).length + cur.length) / mf := by
          have e1 : (ds.length + [d].length + mf) / mf = (ds.length + [d].length) / mf + 1 :=
            Nat.add_div_right _ hmf
          have e2 : ds.length + [d].length + mf ≤ (d :: ds).length + cur.length := by
            simp
            omega
          have h3 := Nat.div_le_div_right (c := mf) e2
          omega
        have mono : (2 * sizeSum ds + sizeSum [d]) / (ms + 1) ≤
            (2 * sizeSum (d :: ds) + sizeSum cur) / (ms + 1) := by
          apply Nat.div_le_div_right
          have hc : sizeSum (d :: ds) = documentSize d + sizeSum ds := by simp [sizeSum]
          have hd : sizeSum [d] = documentSize d := by simp [sizeSum]
          omega
        omega
    · have hrec := ih batches (cur ++ [d]) (sz + documentSize d) (by simp [sizeSum, hsz])
      have mono1 : (2 * sizeSum ds + sizeSum (cur ++ [d])) / (ms + 1) ≤
          (2 * sizeSum (d :: ds) + sizeSum cur) / (ms + 1) := by
        apply Nat.div_le_div_right
        have e1 : sizeSum (cur ++ [d]) = sizeSum cur + documentSize d := by simp [sizeSum]
        have e2 : sizeSum (d :: ds) = documentSize d + sizeSum ds := by simp [sizeSum]
        omega
      have mono2 : (ds.length + (cur ++ [d]).length) / mf ≤ ((d :: ds).length + cur.length) / mf := by
        apply Nat.div_le_div_right
        simp
        omega
      omega

/-- Claim C4 (amended): the greedy batcher may close a batch whose byte
total, together with the next document's size, only just exceeds
`max_size`, so the byte-driven part of the batch count is bounded by
`2 * total_bytes / (max_size + 1)` (each closed batch plus the document
that triggered its closure jointly hold more than `max_size` bytes, and
each document is counted at most twice), not by
`ceil(total_bytes / max_size)`: the batch count is at most
`2 * total_bytes / (max_size + 1) + doc_count / max_files_count + 1`
(floor divisions). -/
theorem split_batch_count_bound
    (documents : List Document) (max_size max_files_count : Nat)
    (hms : 0 < max_size) (hmf : 0 < max_files_count) :
    (split_documents_into_batches documents max_size max_files_count).length ≤
      2 * sizeSum documents / (max_size + 1) + documents.length / max_files_count + 1 := by
  have h := splitLoop_length_bound max_size max_files_count hmf documents [] [] 0
    (by simp [sizeSum])
  have e1 : 2 * sizeSum documents + sizeSum ([] : List Document) = 2 * sizeSum documents := by
    simp [sizeSum]
  have e2 : documents.length + ([] : List Document).length = documents.length := by simp
  rw [e1, e2] at h
  rw [split_documents_into_batches]
  simpa using h

/-- Concrete instance of the amended C4 theorem, every hypothesis
discharged. -/
theorem split_batch_count_bound_witness :
    0 < 10 ∧
      (split_documents_into_batches docsThreeSix 10 10).length ≤
        2 * sizeSum docsThreeSix / (10 + 1) + docsThreeSix.length / 10 + 1 :=
  ⟨by decide, split_batch_count_bound docsThreeSix 10 10 (by decide) (by decide)⟩

lemma dictInsert_fresh_eq {E : Type} (m : List (String × E)) (k : String) (v : E)
    (h : ∀ p ∈ m, p.1 ≠ k) : dictInsert m k v = m ++ [(k, v)] := by
  rw [dictInsert, if_neg]
  simp only [List.any_eq_true]
  rintro ⟨p, hp, hpk⟩
  exact h p hp (eq_of_beq hpk)

lemma scanBatchesLoop_results {E R S : Type} [DecidableEq S]
    (f : List Document → String × Option E × Option R) (sec : S) :
    ∀ (bs : List (List Document)) (errs : List (String × E)) (res : List R)
      (pb : BaseProgressBar S),
      (scanBatchesLoop f sec bs errs res pb).2.1 =
        res ++ bs.filterMap (fun b => (f b).2.2) := by
  intro bs
  induction bs with
  | nil =>
    intro errs res pb
    simp [scanBatchesLoop]
  | cons b bs ih =>
    intro errs res pb
    simp only [scanBatchesLoop]
    rw [ih]
    cases h2 : (f b).2.2 with
    | none => simp [h2]
    | some r => simp [h2]

lemma scanBatchesLoop_section_length {E R S : Type} [DecidableEq S]
    (f : List Document → String × Option E × Option R) (sec : S) :
    ∀ (bs : List (List Document)) (errs : List (String × E)) (res : List R)
      (pb : BaseProgressBar S),
      ((scanBatchesLoop f sec bs errs res pb).2.2).section_length = pb.section_length := by
  intro bs
  induction bs with
  | nil =>
    intro errs res pb
    simp [scanBatchesLoop]
  | cons b bs ih =>
    intro errs res pb
    simp only [scanBatchesLoop]
    rw [ih]
    rfl

lemma scanBatchesLoop_update_count {E R S : Type} [DecidableEq S]
    (f : List Document → String × Option E × Option R) (sec : S) :
    ∀ (bs : List (List Document)) (errs : List (String × E)) (res : List R)
      (pb : BaseProgressBar S) (s : S),
      ((scanBatchesLoop f sec bs errs res pb).2.2).update_count s =
        pb.update_count s + (if s = sec then bs.length else 0) := by
  intro bs
  induction bs with
  | nil =>
    intro errs res pb s
    simp [scanBatchesLoop]
  | cons b bs ih =>
    intro errs res pb s
    simp only [scanBatchesLoop]
    rw [ih]
    by_cases hs : s = sec
    · simp [hs, BaseProgressBar.update]
      omega
    · simp [hs, BaseProgressBar.update]

lemma scanBatchesLoop_count {E R S : Type} [DecidableEq S]
    (f : List Document → String × Option E × Option R) (sec : S) :
    ∀ (bs : List (List Document)) (errs : List (String × E)) (res : List R)
      (pb : BaseProgressBar S),
      (∀ b ∈ bs, (f b).2.1.isSome = !(f b).2.2.isSome) →
      (bs.map (fun b => (f b).1)).Nodup →
      (∀ b ∈ bs, ∀ p ∈ errs, p.1 ≠ (f b).1) →
      ((scanBatchesLoop f sec bs errs res pb).1).length +
          ((scanBatchesLoop f sec bs errs res pb).2.1).length =
        errs.length + res.length + bs.length := by
  intro bs
  induction bs with
  | nil =>
    intro errs res pb _ _ _
    simp [scanBatchesLoop]
  | cons b bs ih =>
    intro errs res pb hxor hnd hfresh
    simp only [scanBatchesLoop]
    have hx := hxor b (List.mem_cons_self b bs)
    rw [List.map_cons, List.nodup_cons] at hnd
    obtain ⟨hnotin, hnd'⟩ := hnd
    cases h1 : (f b).2.1 with
    | some e =>
      have h2 : (f b).2.2 = none := by
        rw [h1] at hx
        cases h2 : (f b).2.2 with
        | none => rfl
        | some r =>
          rw [h2] at hx
          simp at hx
      simp only [h1, h2]
      have hins : dictInsert errs (f b).1 e = errs ++ [((f b).1, e)] :=
        dictInsert_fresh_eq _ _ _ (fun p hp => hfresh b (List.mem_cons_self b bs) p hp)
      rw [hins]
      have hrec := ih (errs ++ [((f b).1, e)]) res (pb.update sec)
        (fun b' hb' => hxor b' (List.mem_cons_of_mem b hb'))
        hnd'
        (by
          intro b' hb' p hp
          rcases List.mem_append.mp hp with h | h
          · exact hfresh b' (List.mem_cons_of_mem b hb') p h
          · have hpe : p = ((f b).1, e) := by simpa using h
            subst hpe
            intro heq
            exact hnotin (heq ▸ List.mem_map_of_mem (fun x => (f x).1) hb'))
      have hel : (errs ++ [((f b).1, e)]).length = errs.length + 1 := by simp
      have hbl : (b :: bs).length = bs.length + 1 := by simp
      omega
    | none =>
      have h2 : ∃ r, (f b).2.2 = some r := by
        rw [h1] at hx
        cases h2 : (f b).2.2 with
        | none =>
          rw [h2] at hx
          simp at hx
        | some r => exact ⟨r, rfl⟩
      obtain ⟨r, h2⟩ := h2
      simp only [h1, h2]
      have hrec := ih errs (res ++ [r]) (pb.update sec)
        (fun b' hb' => hxor b' (List.mem_cons_of_mem b hb'))
        hnd'
        (fun b' hb' => hfresh b' (List.mem_cons_of_mem b hb'))
      have hrl : (res ++ [r]).length = res.length + 1 := by simp
      have hbl : (b :: bs).length = bs.length + 1 := by simp
      omega

/-- Claim C5: when the scan function returns, for every batch, exactly
one of the error/result slots (the other absent), and the returned scan
ids are pairwise distinct, the error mapping and the result sequence
returned by `run_parallel_batched_scan` have sizes summing to the number
of batches submitted. -/
theorem run_scan_outcome_count {E R S : Type} [DecidableEq S]
    (scan_function : List Document → String × Option E × Option R)
    (scan_type : String) (documents : List Document) (progress_bar : BaseProgressBar S)
    (scan_batch_max_size_in_bytes : String → Option Nat)
    (default_max_size default_max_files_count : Nat) (scanSection : S)
    (hone : ∀ b ∈ run_scan_batches documents scan_batch_max_size_in_bytes
        default_max_size default_max_files_count scan_type,
      (scan_function b).2.1.isSome = !(scan_function b).2.2.isSome)
    (hids : ((run_scan_batches documents scan_batch_max_size_in_bytes
        default_max_size default_max_files_count scan_type).map
          (fun b => (scan_function b).1)).Nodup) :
    ((run_parallel_batched_scan scan_function scan_type documents progress_bar
          scan_batch_max_size_in_bytes default_max_size default_max_files_count
          scanSection).1).length +
        ((run_parallel_batched_scan scan_function scan_type documents progress_bar
          scan_batch_max_size_in_bytes default_max_size default_max_files_count
          scanSection).2.1).length =
      (run_scan_batches documents scan_batch_max_size_in_bytes
        default_max_size default_max_files_count scan_type).length := by
  have h := scanBatchesLoop_count scan_function scanSection
    (run_scan_batches documents scan_batch_max_size_in_bytes
      default_max_size default_max_files_count scan_type) [] []
    (progress_bar.set_section_length scanSection
      (run_scan_batches documents scan_batch_max_size_in_bytes
        default_max_size default_max_files_count scan_type).length)
    hone hids (by intro b hb p hp; simp at hp)
  simpa [run_parallel_batched_scan] using h

/-- A concrete scan function for witnesses: no error, reports the batch
length as its result. -/
def witnessScanFn : List Document → String × Option String × Option Nat :=
  fun batch => ("scan-1", none, some batch.length)

/-- A concrete progress bar state over two sections for witnesses. -/
def witnessPb : BaseProgressBar Bool := ⟨fun _ => 3, fun _ => 7⟩

/-- Concrete instance of the C5 theorem, every hypothesis discharged. -/
theorem run_scan_outcome_count_witness :
    ((run_parallel_batched_scan witnessScanFn "secret" [docA] witnessPb
          (fun _ => none) 10 2 true).1).length +
        ((run_parallel_batched_scan witnessScanFn "secret" [docA] witnessPb
          (fun _ => none) 10 2 true).2.1).length =
      (run_scan_batches [docA] (fun _ => none) 10 2 "secret").length :=
  run_scan_outcome_count witnessScanFn "secret" [docA] witnessPb
    (fun _ => none) 10 2 true (by decide) (by decide)

/-- Claim C6: the dispatcher sets the SCAN section's expected step count
to the number of batches, reports exactly one progress step per batch
(so exactly N updates for N batches, whatever each batch's outcome), and
writes no other progress-bar state: every other section's expected count
and update count are unchanged. -/
theorem run_scan_progress_updates {E R S : Type} [DecidableEq S]
    (scan_function : List Document → String × Option E × Option R)
    (scan_type : String) (documents : List Document) (progress_bar : BaseProgressBar S)
    (scan_batch_max_size_in_bytes : String → Option Nat)
    (default_max_size default_max_files_count : Nat) (scanSection : S) :
    ((run_parallel_batched_scan scan_function scan_type documents progress_bar
          scan_batch_max_size_in_bytes default_max_size default_max_files_count
          scanSection).2.2).section_length scanSection =
        (run_scan_batches documents scan_batch_max_size_in_bytes
          default_max_size default_max_files_count scan_type).length ∧
    ((run_parallel_batched_scan scan_function scan_type documents progress_bar
          scan_batch_max_size_in_bytes default_max_size default_max_files_count
          scanSection).2.2).update_count scanSection =
        progress_bar.update_count scanSection +
          (run_scan_batches documents scan_batch_max_size_in_bytes
            default_max_size default_max_files_count scan_type).length ∧
    ∀ s, s ≠ scanSection →
      ((run_parallel_batched_scan scan_function scan_type documents progress_bar
            scan_batch_max_size_in_bytes default_max_size default_max_files_count
            scanSection).2.2).section_length s = progress_bar.section_length s ∧
        ((run_parallel_batched_scan scan_function scan_type documents progress_bar
            scan_batch_max_size_in_bytes default_max_size default_max_files_count
            scanSection).2.2).update_count s = progress_bar.update_count s := by
  simp only [run_parallel_batched_scan]
  refine ⟨?_, ?_, ?_⟩
  · rw [scanBatchesLoop_section_length]
    simp [BaseProgressBar.set_section_length]
  · rw [scanBatchesLoop_update_count]
    simp [BaseProgressBar.set_section_length]
  · intro s hs
    constructor
    · rw [scanBatchesLoop_section_length]
      simp [BaseProgressBar.set_section_length, hs]
    · rw [scanBatchesLoop_update_count]
      simp [BaseProgressBar.set_section_length, hs]

/-- Concrete instance of the C6 theorem: two batches, section length set
to 2, update count raised from 7 to 9, the other section untouched. -/
theorem run_scan_progress_updates_witness :
    ((run_parallel_batched_scan witnessScanFn "secret" [docA, docB, docC] witnessPb
          (fun _ => none) 10 2 true).2.2).section_length true = 2 ∧
    ((run_parallel_batched_scan witnessScanFn "secret" [docA, docB, docC] witnessPb
          (fun _ => none) 10 2 true).2.2).update_count true = 9 ∧
    (((run_parallel_batched_scan witnessScanFn "secret" [docA, docB, docC] witnessPb
          (fun _ => none) 10 2 true).2.2).section_length false = 3 ∧
      ((run_parallel_batched_scan witnessScanFn "secret" [docA, docB, docC] witnessPb
          (fun _ => none) 10 2 true).2.2).update_count false = 7) := by
  have T := run_scan_progress_updates witnessScanFn "secret" [docA, docB, docC] witnessPb
    (fun _ => none) 10 2 true
  exact ⟨T.1, T.2.1, T.2.2 false (by decide)⟩

/-- Claim C9: in the embedded sequential semantics (the pool's `imap`
yields outcomes in submission order), the returned result sequence is
exactly the present results of the scan function applied to the batches,
in batch order: the output ordering is fully determined by the input
ordering. -/
theorem run_scan_results_in_order {E R S : Type} [DecidableEq S]
    (scan_function : List Document → String × Option E × Option R)
    (scan_type : String) (documents : List Document) (progress_bar : BaseProgressBar S)
    (scan_batch_max_size_in_bytes : String → Option Nat)
    (default_max_size default_max_files_count : Nat) (scanSection : S) :
    (run_parallel_batched_scan scan_function scan_type documents progress_bar
        scan_batch_max_size_in_bytes default_max_size default_max_files_count
        scanSection).2.1 =
      (run_scan_batches documents scan_batch_max_size_in_bytes
        default_max_size default_max_files_count scan_type).filterMap
          (fun b => (scan_function b).2.2) := by
  simp only [run_parallel_batched_scan]
  rw [scanBatchesLoop_results]
  simp

/-- Claim C7: the worker count is
`min(cpu_count * SCAN_BATCH_SCANS_PER_CPU, SCAN_BATCH_MAX_PARALLEL_SCANS)`
with `cpu_count` taken as 1 when undeterminable, and in particular never
exceeds the static cap, independent of the number of batches. -/
theorem threads_count_spec
    (os_cpu_count : Option Nat)
    (scan_batch_scans_per_cpu scan_batch_max_parallel_scans : Nat)
    (hcpu : ∀ n, os_cpu_count = some n → 0 < n) :
    _get_threads_count os_cpu_count scan_batch_scans_per_cpu scan_batch_max_parallel_scans =
        min ((os_cpu_count.getD 1) * scan_batch_scans_per_cpu)
          scan_batch_max_parallel_scans ∧
      _get_threads_count os_cpu_count scan_batch_scans_per_cpu scan_batch_max_parallel_scans ≤
        scan_batch_max_parallel_scans := by
  cases os_cpu_count with
  | none => exact ⟨rfl, Nat.min_le_right _ _⟩
  | some n =>
    have hn : n ≠ 0 := Nat.pos_iff_ne_zero.mp (hcpu n rfl)
    constructor
    · simp [_get_threads_count, hn]
    · exact Nat.min_le_right _ _

/-- Concrete instance of the C7 theorem, every hypothesis discharged:
4 CPUs, factor 5, cap 100 give 20 workers. -/
theorem threads_count_spec_witness :
    _get_threads_count (some 4) 5 100 =
        min (((some 4 : Option Nat).getD 1) * 5) 100 ∧
      _get_threads_count (some 4) 5 100 ≤ 100 :=
  threads_count_spec (some 4) 5 100 (by intro n h; cases h; decide)

/-- Claim C10: after `zipped_file_scan_sync`, the caller-visible
`scan_parameters` dictionary no longer binds the key `'report'` (deleted
before the HTTP request is issued when present), and every other key is
left unchanged. -/
theorem zipped_file_scan_sync_report_removed {V : Type}
    (scan_parameters : String → Option V) :
    zipped_file_scan_sync_scan_parameters scan_parameters "report" = none ∧
    ∀ key, key ≠ "report" →
      zipped_file_scan_sync_scan_parameters scan_parameters key = scan_parameters key := by
  constructor
  · rw [zipped_file_scan_sync_scan_parameters]
    split
    · simp
    · rename_i h
      simpa using h
  · intro key hk
    rw [zipped_file_scan_sync_scan_parameters]
    split
    · simp [hk]
    · rfl

/-- A concrete scan-parameters dictionary for the C10 witness. -/
def witnessParams : String → Option Nat :=
  fun key => if key = "report" then some 1 else if key = "x" then some 2 else none

/-- Concrete instance of the C10 theorem, the nested hypothesis
discharged at the key `x`. -/
theorem zipped_file_scan_sync_report_removed_witness :
    zipped_file_scan_sync_scan_parameters witnessParams "report" = none ∧
      zipped_file_scan_sync_scan_parameters witnessParams "x" = witnessParams "x" :=
  ⟨(zipped_file_scan_sync_report_removed witnessParams).1,
    (zipped_file_scan_sync_report_removed witnessParams).2 "x" (by decide)⟩

end CycodeCli
